import Mathlib

/-!
Verification of the squared-exponential kernel engine of
`src/flare_pp/v2/kernels/squared_exponential.h`.

The repository snapshot contains only the header (declarations).  The
operation bodies are therefore modelled from the specification: each
such definition carries a doc comment starting `Modelled from the spec:`
naming the section of the spec it follows.  Doubles are modelled as real
numbers; matrices as lists of rows.
-/

namespace Flare

/-- Dot product of two real vectors (componentwise product, summed). -/
def dotList (xs ys : List ℝ) : ℝ :=
  ((xs.zip ys).map (fun p => p.1 * p.2)).sum

/-- Euclidean norm `|d| = sqrt (d · d)` of a descriptor vector (spec §3). -/
noncomputable def euclideanNorm (d : List ℝ) : ℝ :=
  Real.sqrt (dotList d d)

/-- Cosine similarity `c = û · v̂ = (u · v) / (|u| |v|)` (spec §4.1). -/
noncomputable def cosSim (u v : List ℝ) : ℝ :=
  dotList u v / (euclideanNorm u * euclideanNorm v)

/-- Modelled from the spec: §4.1 kernel primitive of
`SquaredExponential` (body of `squared_exponential.cpp` is not in the
snapshot).  `k(u,v) = sig2 · exp((c − 1) / ls2)`; a zero-norm
descriptor contributes zero kernel signal (spec §3, §7). -/
noncomputable def kernelVal (sig2 ls2 : ℝ) (u v : List ℝ) : ℝ :=
  if euclideanNorm u = 0 ∨ euclideanNorm v = 0 then 0
  else sig2 * Real.exp ((cosSim u v - 1) / ls2)

/-- One representative environment of a `ClusterDescriptor`:
descriptor vector and discrete kind (spec §3). -/
structure EnvDesc where
  vec : List ℝ
  kind : ℕ

/-- `ClusterDescriptor` (spec §3): ordered sequence of representative
environment descriptors tagged with a kind. -/
structure ClusterDescriptor where
  envs : List EnvDesc

/-- One atom of a structure in `DescriptorValues`: local descriptor,
kind, and derivative blocks of the descriptor with respect to the 3A
Cartesian coordinates and the 6 strain components (spec §3). -/
structure AtomDesc where
  vec : List ℝ
  kind : ℕ
  posDerivs : List (List ℝ)
  strainDerivs : List (List ℝ)

/-- `DescriptorValues` (spec §3): one structure's local descriptors
with their derivative blocks. -/
structure DescriptorValues where
  atoms : List AtomDesc

/-- Hyperparameter state of the engine, mirroring the public fields
`double sigma, ls, sig2, ls2` of `SquaredExponential`
(squared_exponential.h line 13). -/
structure SquaredExponential where
  sigma : ℝ
  ls : ℝ
  sig2 : ℝ
  ls2 : ℝ

/-- The two-argument constructor `SquaredExponential(sigma, ls)`
(header line 17): caches `sig2 = sigma²`, `ls2 = ls²` (spec §3). -/
def mkEngine (sigma ls : ℝ) : SquaredExponential :=
  ⟨sigma, ls, sigma ^ 2, ls ^ 2⟩

/-- Error taxonomy of spec §7. -/
inductive KernelError where
  | InvalidHyperparameter
  | DimensionMismatch
deriving DecidableEq

/-- Modelled from the spec: §4.7 `set_hyperparameters` (body not in the
snapshot).  Replaces `sigma, ls` from a two-element vector, recomputes
`sig2, ls2`; fails with `InvalidHyperparameter` when either entry is
non-positive (in the real-number model every value is finite, so the
non-finiteness clause is vacuous); a vector of any other length is a
`DimensionMismatch`. -/
noncomputable def set_hyperparameters (_eng : SquaredExponential)
    (new_hyps : List ℝ) : Except KernelError SquaredExponential :=
  match new_hyps with
  | [s, l] =>
      if s ≤ 0 ∨ l ≤ 0 then .error .InvalidHyperparameter
      else .ok ⟨s, l, s ^ 2, l ^ 2⟩
  | _ => .error .DimensionMismatch

/-- Modelled from the spec: §4.2 `envs_envs` (body not in the
snapshot).  For every pair of representative environments of matching
kind the cell holds `k(u,v)`; cross-kind cells are zero. -/
noncomputable def envs_envs (eng : SquaredExponential)
    (envs1 envs2 : ClusterDescriptor) : List (List ℝ) :=
  envs1.envs.map (fun u => envs2.envs.map (fun v =>
    if u.kind = v.kind then kernelVal eng.sig2 eng.ls2 u.vec v.vec else 0))

/-- Total accessor for a matrix cell: `entry K i j = K[i][j]`, with 0
outside the stored dimensions. -/
def entry (K : List (List ℝ)) (i j : ℕ) : ℝ :=
  (K.getD i []).getD j 0

/-- Modelled from the spec: §4.3 `envs_envs_grad` (body not in the
snapshot).  Reuses the stored `Kuu` values: the sigma-derivative block
`2·Kuu[i][j]/sigma` is stacked on top of the ls-derivative block
`Kuu[i][j]·(1 − c)·2/ls³`, where `c` is the cosine similarity of the
corresponding descriptor pair. -/
noncomputable def envs_envs_grad (eng : SquaredExponential)
    (envs1 envs2 : ClusterDescriptor) (Kuu : List (List ℝ)) :
    List (List ℝ) :=
  (Kuu.map (fun row => row.map (fun k => 2 * k / eng.sigma)))
    ++ ((envs1.envs.zip Kuu).map (fun p =>
          (envs2.envs.zip p.2).map (fun q =>
            q.2 * (1 - cosSim p.1.vec q.1.vec) * 2 / eng.ls ^ 3)))

/-- Componentwise gradient of the cosine similarity with respect to the
second, un-normalized, argument:
`∂c/∂v_j = u_j/(|u||v|) − c · v_j/|v|²` (spec §4.4, chain rule through
the un-normalized descriptor). -/
noncomputable def gradCos (u v : List ℝ) : List ℝ :=
  (u.zip v).map (fun p =>
    p.1 / (euclideanNorm u * euclideanNorm v)
      - cosSim u v * p.2 / euclideanNorm v ^ 2)

/-- Modelled from the spec: gradient `∂k/∂v` of the §4.1 primitive with
respect to the un-normalized second descriptor,
`∂k/∂v = (k/ls2) · ∂c/∂v`; a zero-norm descriptor contributes zero
(spec §3, §7). -/
noncomputable def kernelGrad (sig2 ls2 : ℝ) (u v : List ℝ) : List ℝ :=
  if euclideanNorm u = 0 ∨ euclideanNorm v = 0 then v.map (fun _ => 0)
  else (gradCos u v).map (fun g => kernelVal sig2 ls2 u v / ls2 * g)

/-- Number of Cartesian coordinate columns of a structure: `3A`. -/
def nCoords (struc : DescriptorValues) : ℕ :=
  3 * struc.atoms.length

/-- Modelled from the spec: §4.4 `envs_struc` (body not in the
snapshot).  Row per representative environment `u`, in the order of
`envs`; column 0 accumulates `k(u, d_a)` over the atoms `a`; the `3A`
force columns hold `−Σ_a ∂k/∂d_a · ∂d_a/∂r_t`; the 6 stress columns the
same with strain derivatives. -/
noncomputable def envs_struc (eng : SquaredExponential)
    (envs : ClusterDescriptor) (struc : DescriptorValues) :
    List (List ℝ) :=
  envs.envs.map (fun u =>
    ((struc.atoms.map (fun a =>
        kernelVal eng.sig2 eng.ls2 u.vec a.vec)).sum)
      :: (((List.range (nCoords struc)).map (fun t =>
            -(struc.atoms.map (fun a =>
                dotList (kernelGrad eng.sig2 eng.ls2 u.vec a.vec)
                  (a.posDerivs.getD t []))).sum))
          ++ ((List.range 6).map (fun s =>
            -(struc.atoms.map (fun a =>
                dotList (kernelGrad eng.sig2 eng.ls2 u.vec a.vec)
                  (a.strainDerivs.getD s []))).sum))))

/-- Matrix–vector product over list matrices. -/
def matVec (H : List (List ℝ)) (y : List ℝ) : List ℝ :=
  H.map (fun row => dotList row y)

/-- Modelled from the spec: second mixed derivative `∂²k/∂u_i∂v_j` of
the §4.1 primitive through both un-normalized descriptors (spec §4.6,
"first and second chain-rule derivatives"); zero for a zero-norm
descriptor (spec §3, §7). -/
noncomputable def kernelHess (sig2 ls2 : ℝ) (u v : List ℝ) :
    List (List ℝ) :=
  if euclideanNorm u = 0 ∨ euclideanNorm v = 0 then
    u.map (fun _ => v.map (fun _ => 0))
  else
    (List.range u.length).map (fun i => (List.range v.length).map (fun j =>
      kernelVal sig2 ls2 u v / ls2 *
        ((gradCos v u).getD i 0 * (gradCos u v).getD j 0 / ls2
          + (if i = j then 1 else 0) / (euclideanNorm u * euclideanNorm v)
          - u.getD i 0 * u.getD j 0 / (euclideanNorm u ^ 3 * euclideanNorm v)
          - (gradCos v u).getD i 0 * v.getD j 0 / euclideanNorm v ^ 2)))

/-- Modelled from the spec: §4.5 `self_kernel_struc` (body not in the
snapshot).  Entry 0 is the total-energy self-kernel, the sum over all
local-descriptor self-kernels; the `3A` force and 6 stress entries are
the self-variances obtained by the §4.4 chain rule with both kernel
arguments equal to the same structure's descriptors. -/
noncomputable def self_kernel_struc (eng : SquaredExponential)
    (struc : DescriptorValues) : List ℝ :=
  ((struc.atoms.map (fun a =>
      kernelVal eng.sig2 eng.ls2 a.vec a.vec)).sum)
    :: (((List.range (nCoords struc)).map (fun t =>
          (struc.atoms.map (fun a =>
              dotList (a.posDerivs.getD t [])
                (matVec (kernelHess eng.sig2 eng.ls2 a.vec a.vec)
                  (a.posDerivs.getD t [])))).sum))
        ++ ((List.range 6).map (fun s =>
          (struc.atoms.map (fun a =>
              dotList (a.strainDerivs.getD s [])
                (matVec (kernelHess eng.sig2 eng.ls2 a.vec a.vec)
                  (a.strainDerivs.getD s [])))).sum)))

/-- Modelled from the spec: §4.6 `struc_struc` (body not in the
snapshot).  Full energy/force/stress cross block: sums over all pairs
of local descriptors of the kernel value and its first and second
chain-rule derivatives through each structure's positional and strain
derivative blocks. -/
noncomputable def struc_struc (eng : SquaredExponential)
    (struc1 struc2 : DescriptorValues) : List (List ℝ) :=
  let derivs1 := fun (a : AtomDesc) =>
    ((List.range (nCoords struc1)).map (fun t => a.posDerivs.getD t []))
      ++ ((List.range 6).map (fun s => a.strainDerivs.getD s []))
  let derivs2 := fun (b : AtomDesc) =>
    ((List.range (nCoords struc2)).map (fun t => b.posDerivs.getD t []))
      ++ ((List.range 6).map (fun s => b.strainDerivs.getD s []))
  (((struc1.atoms.map (fun a => (struc2.atoms.map (fun b =>
      kernelVal eng.sig2 eng.ls2 a.vec b.vec)).sum)).sum)
    :: ((List.range (nCoords struc2 + 6)).map (fun c2 =>
        -(struc1.atoms.map (fun a => (struc2.atoms.map (fun b =>
            dotList (kernelGrad eng.sig2 eng.ls2 a.vec b.vec)
              ((derivs2 b).getD c2 []))).sum)).sum)))
    :: ((List.range (nCoords struc1 + 6)).map (fun c1 =>
        (-(struc1.atoms.map (fun a => (struc2.atoms.map (fun b =>
            dotList (kernelGrad eng.sig2 eng.ls2 b.vec a.vec)
              ((derivs1 a).getD c1 []))).sum)).sum)
          :: ((List.range (nCoords struc2 + 6)).map (fun c2 =>
              (struc1.atoms.map (fun a => (struc2.atoms.map (fun b =>
                  dotList ((derivs1 a).getD c1 [])
                    (matVec (kernelHess eng.sig2 eng.ls2 a.vec b.vec)
                      ((derivs2 b).getD c2 [])))).sum)).sum))))

/-- C++ parameter types appearing in the build-operation declarations
of squared_exponential.h. -/
inductive CppType where
  | clusterDescriptorT
  | descriptorValuesT
  | matrixT
deriving DecidableEq

/-- How a C++ parameter is passed: by const reference, by value, or by
mutable (non-const) reference. -/
inductive PassMode where
  | constRef
  | byValue
  | mutRef
deriving DecidableEq

/-- One declared parameter: its type and pass mode. -/
structure CppParam where
  type : CppType
  mode : PassMode
deriving DecidableEq

/-- The declared parameter lists of the five matrix-building operations,
transcribed from squared_exponential.h lines 19-32:
`envs_envs(const ClusterDescriptor&, const ClusterDescriptor&)`,
`envs_envs_grad(const ClusterDescriptor&, const ClusterDescriptor&, const MatrixXd&)`,
`envs_struc(const ClusterDescriptor&, const DescriptorValues&)`,
`self_kernel_struc(DescriptorValues)`,
`struc_struc(DescriptorValues, DescriptorValues)`. -/
def buildOpSignatures : List (String × List CppParam) :=
  [("envs_envs",
      [⟨.clusterDescriptorT, .constRef⟩, ⟨.clusterDescriptorT, .constRef⟩]),
   ("envs_envs_grad",
      [⟨.clusterDescriptorT, .constRef⟩, ⟨.clusterDescriptorT, .constRef⟩,
       ⟨.matrixT, .constRef⟩]),
   ("envs_struc",
      [⟨.clusterDescriptorT, .constRef⟩, ⟨.descriptorValuesT, .constRef⟩]),
   ("self_kernel_struc", [⟨.descriptorValuesT, .byValue⟩]),
   ("struc_struc",
      [⟨.descriptorValuesT, .byValue⟩, ⟨.descriptorValuesT, .byValue⟩])]

/-! ### Basic lemmas about dot products, norms and the kernel primitive -/

lemma dotList_nil_left (ys : List ℝ) : dotList [] ys = 0 := by
  simp [dotList]

lemma dotList_nil_right (xs : List ℝ) : dotList xs [] = 0 := by
  cases xs <;> simp [dotList]

lemma dotList_cons (x y : ℝ) (xs ys : List ℝ) :
    dotList (x :: xs) (y :: ys) = x * y + dotList xs ys := by
  simp [dotList]

lemma dotList_comm (u v : List ℝ) : dotList u v = dotList v u := by
  induction u generalizing v with
  | nil => cases v <;> simp [dotList]
  | cons x xs ih =>
    cases v with
    | nil => simp [dotList]
    | cons y ys => rw [dotList_cons, dotList_cons, ih, mul_comm]

lemma dotList_self_nonneg (d : List ℝ) : 0 ≤ dotList d d := by
  induction d with
  | nil => simp [dotList]
  | cons x xs ih =>
    rw [dotList_cons]
    exact add_nonneg (mul_self_nonneg x) ih

lemma dotList_map_zero_left (l w : List ℝ) :
    dotList (l.map (fun _ => (0 : ℝ))) w = 0 := by
  induction l generalizing w with
  | nil => simp [dotList]
  | cons x xs ih =>
    cases w with
    | nil => simp [dotList]
    | cons y ys => rw [List.map_cons, dotList_cons, ih, zero_mul, add_zero]

lemma mul_self_euclideanNorm (d : List ℝ) :
    euclideanNorm d * euclideanNorm d = dotList d d :=
  Real.mul_self_sqrt (dotList_self_nonneg d)

lemma dotList_self_pos (d : List ℝ) (h : euclideanNorm d ≠ 0) :
    0 < dotList d d := by
  rcases lt_or_eq_of_le (dotList_self_nonneg d) with hp | he
  · exact hp
  · exact absurd (by rw [euclideanNorm, ← he, Real.sqrt_zero]) h

lemma cosSim_self (d : List ℝ) (h : euclideanNorm d ≠ 0) :
    cosSim d d = 1 := by
  rw [cosSim, mul_self_euclideanNorm]
  exact div_self (ne_of_gt (dotList_self_pos d h))

lemma cosSim_comm (u v : List ℝ) : cosSim u v = cosSim v u := by
  rw [cosSim, cosSim, dotList_comm, mul_comm]

lemma kernelVal_self (s l : ℝ) (d : List ℝ) (h : euclideanNorm d ≠ 0) :
    kernelVal s l d d = s := by
  rw [kernelVal, if_neg (by tauto), cosSim_self d h]
  simp

lemma kernelVal_comm (s l : ℝ) (u v : List ℝ) :
    kernelVal s l u v = kernelVal s l v u := by
  rw [kernelVal, kernelVal, if_congr or_comm rfl rfl, cosSim_comm]

lemma kernelVal_zero_left (s l : ℝ) (u v : List ℝ)
    (h : euclideanNorm u = 0) : kernelVal s l u v = 0 := by
  rw [kernelVal, if_pos (Or.inl h)]

lemma kernelVal_zero_right (s l : ℝ) (u v : List ℝ)
    (h : euclideanNorm v = 0) : kernelVal s l u v = 0 := by
  rw [kernelVal, if_pos (Or.inr h)]

lemma kernelVal_sigma_doubled (s l : ℝ) (u v : List ℝ) :
    kernelVal ((2 * s) ^ 2) l u v = 4 * kernelVal (s ^ 2) l u v := by
  rw [kernelVal, kernelVal]
  by_cases h : euclideanNorm u = 0 ∨ euclideanNorm v = 0
  · rw [if_pos h, if_pos h, mul_zero]
  · rw [if_neg h, if_neg h]; ring

/-! ### Lemmas about matrix cells of nested-map matrices -/

lemma getD_map_map {α β : Type} (l1 : List α) (l2 : List β)
    (f : α → β → ℝ) (i : ℕ) (hi : i < l1.length) :
    (l1.map (fun u => l2.map (fun v => f u v))).getD i [] =
      l2.map (fun v => f (l1.get ⟨i, hi⟩) v) := by
  rw [List.getD_eq_getElem _ _ (by simpa using hi), List.getElem_map]
  simp

lemma getD_map {α : Type} (l : List α) (g : α → List ℝ) (i : ℕ)
    (hi : i < l.length) :
    (l.map g).getD i [] = g (l.get ⟨i, hi⟩) := by
  rw [List.getD_eq_getElem _ _ (by simpa using hi), List.getElem_map]
  simp

lemma entry_map_map {α β : Type} (l1 : List α) (l2 : List β)
    (f : α → β → ℝ) (i j : ℕ) (hi : i < l1.length) (hj : j < l2.length) :
    entry (l1.map (fun u => l2.map (fun v => f u v))) i j =
      f (l1.get ⟨i, hi⟩) (l2.get ⟨j, hj⟩) := by
  rw [entry, getD_map_map l1 l2 f i hi,
    List.getD_eq_getElem _ _ (by simpa using hj), List.getElem_map]
  simp

lemma entry_map_map_row_oob {α β : Type} (l1 : List α) (l2 : List β)
    (f : α → β → ℝ) (i j : ℕ) (hi : l1.length ≤ i) :
    entry (l1.map (fun u => l2.map (fun v => f u v))) i j = 0 := by
  rw [entry,
    List.getD_eq_default (l1.map (fun u => l2.map (fun v => f u v))) []
      (by simpa using hi)]
  simp

lemma entry_map_map_col_oob {α β : Type} (l1 : List α) (l2 : List β)
    (f : α → β → ℝ) (i j : ℕ) (hj : l2.length ≤ j) :
    entry (l1.map (fun u => l2.map (fun v => f u v))) i j = 0 := by
  by_cases hi : i < l1.length
  · rw [entry, getD_map_map l1 l2 f i hi,
      List.getD_eq_default _ _ (by simpa using hj)]
  · exact entry_map_map_row_oob l1 l2 f i j (not_lt.mp hi)

lemma entry_map_row_oob {α : Type} (l : List α) (g : α → List ℝ)
    (i j : ℕ) (hi : l.length ≤ i) :
    entry (l.map g) i j = 0 := by
  rw [entry, List.getD_eq_default (l.map g) [] (by simpa using hi)]
  simp

lemma entry_append_left (A B : List (List ℝ)) (i j : ℕ)
    (hi : i < A.length) :
    entry (A ++ B) i j = entry A i j := by
  rw [entry, entry, List.getD_append _ _ _ _ hi]

lemma entry_append_right (A B : List (List ℝ)) (i j : ℕ)
    (hi : A.length ≤ i) :
    entry (A ++ B) i j = entry B (i - A.length) j := by
  rw [entry, entry, List.getD_append_right _ _ _ _ hi]

lemma entry_scale_map (K : List (List ℝ)) (g : ℝ → ℝ) (hg : g 0 = 0)
    (i j : ℕ) :
    entry (K.map (fun row => row.map g)) i j = g (entry K i j) := by
  have h1 : (K.map (fun row => row.map g)).getD i [] = (K.getD i []).map g := by
    by_cases hi : i < K.length
    · rw [getD_map _ _ i hi, List.getD_eq_getElem K [] hi]
      simp
    · rw [List.getD_eq_default (K.map (fun row => row.map g)) []
          (by simpa using not_lt.mp hi),
        List.getD_eq_default K [] (not_lt.mp hi)]
      simp
  rw [entry, entry, h1]
  by_cases hj : j < (K.getD i []).length
  · have hj' : j < ((K.getD i []).map g).length := by simpa using hj
    rw [List.getD_eq_getElem _ _ hj', List.getElem_map,
      List.getD_eq_getElem _ _ hj]
  · rw [List.getD_eq_default ((K.getD i []).map g) 0 (by simpa using not_lt.mp hj),
      List.getD_eq_default _ _ (not_lt.mp hj), hg]

/-! ### Analytic derivatives of the squared-exponential form -/

lemma hasDerivAt_sigma_kernel (c L s0 : ℝ) (h : s0 ≠ 0) :
    HasDerivAt (fun s : ℝ => s ^ 2 * Real.exp ((c - 1) / L))
      (2 * (s0 ^ 2 * Real.exp ((c - 1) / L)) / s0) s0 := by
  have h1 : HasDerivAt (fun s : ℝ => s ^ 2) (2 * s0) s0 := by
    simpa using hasDerivAt_pow 2 s0
  have h2 := h1.mul_const (Real.exp ((c - 1) / L))
  convert h2 using 1
  field_simp
  ring

lemma hasDerivAt_ls_kernel (c s L0 : ℝ) (h : L0 ≠ 0) :
    HasDerivAt (fun l : ℝ => s ^ 2 * Real.exp ((c - 1) / l ^ 2))
      (s ^ 2 * Real.exp ((c - 1) / L0 ^ 2) * (1 - c) * 2 / L0 ^ 3) L0 := by
  have h1 : HasDerivAt (fun l : ℝ => l ^ 2) (2 * L0) L0 := by
    simpa using hasDerivAt_pow 2 L0
  have h2 : HasDerivAt (fun l : ℝ => (l ^ 2)⁻¹)
      (-(2 * L0) / (L0 ^ 2) ^ 2) L0 := h1.inv (pow_ne_zero 2 h)
  have h3 := HasDerivAt.const_mul (c - 1) h2
  have h4 := h3.exp
  have h5 := HasDerivAt.const_mul (s ^ 2) h4
  have hfun : (fun l : ℝ => s ^ 2 * Real.exp ((c - 1) * (l ^ 2)⁻¹)) =
      fun l : ℝ => s ^ 2 * Real.exp ((c - 1) / l ^ 2) := by
    funext x
    rw [div_eq_mul_inv]
  rw [hfun] at h5
  convert h5 using 1
  rw [div_eq_mul_inv (c - 1) (L0 ^ 2)]
  field_simp
  ring

/-! ### Lemmas about `set_hyperparameters` -/

lemma set_hyperparameters_ok (eng : SquaredExponential) (s l : ℝ)
    (hs : 0 < s) (hl : 0 < l) :
    set_hyperparameters eng [s, l] = .ok ⟨s, l, s ^ 2, l ^ 2⟩ := by
  rw [set_hyperparameters, if_neg (by push_neg; exact ⟨hs, hl⟩)]

lemma set_hyperparameters_err (eng : SquaredExponential) (s l : ℝ)
    (h : s ≤ 0 ∨ l ≤ 0) :
    set_hyperparameters eng [s, l] = .error .InvalidHyperparameter := by
  rw [set_hyperparameters, if_pos h]

/-! ### Claim theorems -/

/-- C1: for every pair of descriptors `u, v` with nonzero norms, the
kernel value written into the matching-kind cells of `envs_envs` equals
`sig2 * exp((c - 1) / ls2)` with `c` the cosine similarity of the
normalized descriptors; in particular `k(d, d) = sig2` for any
descriptor `d` with nonzero norm. -/
theorem envs_envs_matching_cell (eng : SquaredExponential)
    (envs1 envs2 : ClusterDescriptor) (i j : ℕ)
    (hi : i < envs1.envs.length) (hj : j < envs2.envs.length)
    (hkind : (envs1.envs.get ⟨i, hi⟩).kind = (envs2.envs.get ⟨j, hj⟩).kind)
    (hu : euclideanNorm (envs1.envs.get ⟨i, hi⟩).vec ≠ 0)
    (hv : euclideanNorm (envs2.envs.get ⟨j, hj⟩).vec ≠ 0) :
    entry (envs_envs eng envs1 envs2) i j =
      eng.sig2 * Real.exp
        ((cosSim (envs1.envs.get ⟨i, hi⟩).vec
            (envs2.envs.get ⟨j, hj⟩).vec - 1) / eng.ls2)
    ∧ ∀ d : List ℝ, euclideanNorm d ≠ 0 →
        kernelVal eng.sig2 eng.ls2 d d = eng.sig2 := by
  constructor
  · rw [envs_envs, entry_map_map _ _ _ i j hi hj, if_pos hkind, kernelVal,
      if_neg (not_or.mpr ⟨hu, hv⟩)]
  · exact fun d hd => kernelVal_self _ _ d hd

/-- Witness for C1 at a concrete input. -/
theorem envs_envs_matching_cell_witness :
    entry (envs_envs (mkEngine 1 1) ⟨[⟨[1], 0⟩]⟩ ⟨[⟨[1], 0⟩]⟩) 0 0 =
      (mkEngine 1 1).sig2 * Real.exp ((cosSim [1] [1] - 1) / (mkEngine 1 1).ls2)
    ∧ ∀ d : List ℝ, euclideanNorm d ≠ 0 →
        kernelVal (mkEngine 1 1).sig2 (mkEngine 1 1).ls2 d d =
          (mkEngine 1 1).sig2 :=
  envs_envs_matching_cell (mkEngine 1 1) ⟨[⟨[1], 0⟩]⟩ ⟨[⟨[1], 0⟩]⟩ 0 0
    (by simp) (by simp) rfl
    (by simp [euclideanNorm, dotList]) (by simp [euclideanNorm, dotList])

/-- C4: every cross-kind cell of the matrix returned by `envs_envs` is
exactly 0. -/
theorem envs_envs_cross_kind_zero (eng : SquaredExponential)
    (envs1 envs2 : ClusterDescriptor) (i j : ℕ)
    (hi : i < envs1.envs.length) (hj : j < envs2.envs.length)
    (hkind : (envs1.envs.get ⟨i, hi⟩).kind ≠ (envs2.envs.get ⟨j, hj⟩).kind) :
    entry (envs_envs eng envs1 envs2) i j = 0 := by
  rw [envs_envs, entry_map_map _ _ _ i j hi hj, if_neg hkind]

/-- Witness for C4 at a concrete input. -/
theorem envs_envs_cross_kind_zero_witness :
    entry (envs_envs (mkEngine 1 1) ⟨[⟨[1], 0⟩]⟩ ⟨[⟨[1], 1⟩]⟩) 0 0 = 0 :=
  envs_envs_cross_kind_zero (mkEngine 1 1) ⟨[⟨[1], 0⟩]⟩ ⟨[⟨[1], 1⟩]⟩ 0 0
    (by simp) (by simp) (by simp)

/-- C5: when `envs_envs` is applied with the same `ClusterDescriptor`
as both arguments, the resulting matrix is symmetric. -/
theorem envs_envs_self_symmetric (eng : SquaredExponential)
    (envs : ClusterDescriptor) (i j : ℕ)
    (hi : i < envs.envs.length) (hj : j < envs.envs.length) :
    entry (envs_envs eng envs envs) i j =
      entry (envs_envs eng envs envs) j i := by
  rw [envs_envs, entry_map_map _ _ _ i j hi hj, entry_map_map _ _ _ j i hj hi]
  by_cases h : (envs.envs.get ⟨i, hi⟩).kind = (envs.envs.get ⟨j, hj⟩).kind
  · rw [if_pos h, if_pos h.symm, kernelVal_comm]
  · rw [if_neg h, if_neg (fun hh => h hh.symm)]

/-- Witness for C5 at a concrete input. -/
theorem envs_envs_self_symmetric_witness :
    entry (envs_envs (mkEngine 1 1) ⟨[⟨[1, 0], 0⟩, ⟨[0, 1], 0⟩]⟩
        ⟨[⟨[1, 0], 0⟩, ⟨[0, 1], 0⟩]⟩) 0 1 =
      entry (envs_envs (mkEngine 1 1) ⟨[⟨[1, 0], 0⟩, ⟨[0, 1], 0⟩]⟩
        ⟨[⟨[1, 0], 0⟩, ⟨[0, 1], 0⟩]⟩) 1 0 :=
  envs_envs_self_symmetric (mkEngine 1 1) ⟨[⟨[1, 0], 0⟩, ⟨[0, 1], 0⟩]⟩ 0 1
    (by simp) (by simp)

/-- C9: with `sigma = 1`, `ls = 1`, `envs_envs` on two single-kind
clusters each holding the unit descriptors `[1,0]` and `[0,1]` returns
exactly `[[1, exp(-1)], [exp(-1), 1]]`. -/
theorem envs_envs_orthogonal_example :
    envs_envs (mkEngine 1 1) ⟨[⟨[1, 0], 0⟩, ⟨[0, 1], 0⟩]⟩
        ⟨[⟨[1, 0], 0⟩, ⟨[0, 1], 0⟩]⟩ =
      [[1, Real.exp (-1)], [Real.exp (-1), 1]] := by
  norm_num [envs_envs, kernelVal, cosSim, euclideanNorm, dotList, mkEngine]

/-- C2: `set_hyperparameters` on a two-element vector `[sigma, ls]`
fails with `InvalidHyperparameter` whenever either entry is
non-positive (every real-number value is finite), and on success
replaces `sigma` and `ls` and recomputes `sig2 = sigma²`,
`ls2 = ls²`. -/
theorem set_hyperparameters_spec (eng : SquaredExponential) (s l : ℝ) :
    ((s ≤ 0 ∨ l ≤ 0) →
        set_hyperparameters eng [s, l] = .error .InvalidHyperparameter)
    ∧ (0 < s → 0 < l →
        set_hyperparameters eng [s, l] = .ok ⟨s, l, s ^ 2, l ^ 2⟩) :=
  ⟨set_hyperparameters_err eng s l,
   fun hs hl => set_hyperparameters_ok eng s l hs hl⟩

/-- Witness for C2 at the spec's concrete inputs: `[0, 1]` and
`[1, -1]` fail, `[1, 1]` succeeds. -/
theorem set_hyperparameters_spec_witness :
    set_hyperparameters (mkEngine 2 2) [0, 1] =
        .error .InvalidHyperparameter
    ∧ set_hyperparameters (mkEngine 2 2) [1, -1] =
        .error .InvalidHyperparameter
    ∧ set_hyperparameters (mkEngine 2 2) [1, 1] =
        .ok ⟨1, 1, 1 ^ 2, 1 ^ 2⟩ :=
  ⟨(set_hyperparameters_spec (mkEngine 2 2) 0 1).1 (Or.inl le_rfl),
   (set_hyperparameters_spec (mkEngine 2 2) 1 (-1)).1 (Or.inr (by norm_num)),
   (set_hyperparameters_spec (mkEngine 2 2) 1 1).2 one_pos one_pos⟩

/-- C6: replacing `sigma` by `2·sigma` via `set_hyperparameters` (with
`ls` unchanged) multiplies every entry of the matrix returned by
`envs_envs` by exactly 4. -/
theorem envs_envs_sigma_doubling (eng eng1 eng2 : SquaredExponential)
    (s l : ℝ) (hs : 0 < s) (hl : 0 < l)
    (h1 : set_hyperparameters eng [s, l] = .ok eng1)
    (h2 : set_hyperparameters eng [2 * s, l] = .ok eng2)
    (envs1 envs2 : ClusterDescriptor) (i j : ℕ) :
    entry (envs_envs eng2 envs1 envs2) i j =
      4 * entry (envs_envs eng1 envs1 envs2) i j := by
  rw [set_hyperparameters_ok eng s l hs hl] at h1
  rw [set_hyperparameters_ok eng (2 * s) l (by linarith) hl] at h2
  injection h1 with h1
  injection h2 with h2
  subst h1
  subst h2
  by_cases hi : i < envs1.envs.length
  · by_cases hj : j < envs2.envs.length
    · rw [envs_envs, envs_envs, entry_map_map _ _ _ i j hi hj,
        entry_map_map _ _ _ i j hi hj]
      by_cases hk :
          (envs1.envs.get ⟨i, hi⟩).kind = (envs2.envs.get ⟨j, hj⟩).kind
      · rw [if_pos hk, if_pos hk]
        exact kernelVal_sigma_doubled s (l ^ 2) _ _
      · rw [if_neg hk, if_neg hk, mul_zero]
    · rw [envs_envs, envs_envs,
        entry_map_map_col_oob _ _ _ i j (not_lt.mp hj),
        entry_map_map_col_oob _ _ _ i j (not_lt.mp hj), mul_zero]
  · rw [envs_envs, envs_envs,
      entry_map_map_row_oob _ _ _ i j (not_lt.mp hi),
      entry_map_map_row_oob _ _ _ i j (not_lt.mp hi), mul_zero]

/-- Witness for C6 at a concrete input. -/
theorem envs_envs_sigma_doubling_witness :
    entry (envs_envs ⟨2 * 1, 1, (2 * 1) ^ 2, 1 ^ 2⟩
        ⟨[⟨[1], 0⟩]⟩ ⟨[⟨[1], 0⟩]⟩) 0 0 =
      4 * entry (envs_envs ⟨1, 1, 1 ^ 2, 1 ^ 2⟩
        ⟨[⟨[1], 0⟩]⟩ ⟨[⟨[1], 0⟩]⟩) 0 0 :=
  envs_envs_sigma_doubling (mkEngine 3 3) ⟨1, 1, 1 ^ 2, 1 ^ 2⟩
    ⟨2 * 1, 1, (2 * 1) ^ 2, 1 ^ 2⟩ 1 1 one_pos one_pos
    (set_hyperparameters_ok _ 1 1 one_pos one_pos)
    (set_hyperparameters_ok _ (2 * 1) 1 (by norm_num) one_pos)
    ⟨[⟨[1], 0⟩]⟩ ⟨[⟨[1], 0⟩]⟩ 0 0

/-- C7: the energy column entry of the row of `envs_struc`
corresponding to representative environment `u` equals the sum over all
atoms `a` of the kernel values `k(u, d_a)`, each computed by the §4.1
primitive. -/
theorem envs_struc_energy_entry (eng : SquaredExponential)
    (envs : ClusterDescriptor) (struc : DescriptorValues) (i : ℕ)
    (hi : i < envs.envs.length) :
    entry (envs_struc eng envs struc) i 0 =
      (struc.atoms.map (fun a =>
        kernelVal eng.sig2 eng.ls2
          (envs.envs.get ⟨i, hi⟩).vec a.vec)).sum := by
  rw [envs_struc, entry, getD_map _ _ i hi]
  rfl

/-- Witness for C7 at a concrete input. -/
theorem envs_struc_energy_entry_witness :
    entry (envs_struc (mkEngine 1 1) ⟨[⟨[1], 0⟩]⟩
        ⟨[⟨[1], 0, [], []⟩]⟩) 0 0 =
      ((⟨[⟨[1], 0, [], []⟩]⟩ : DescriptorValues).atoms.map (fun a =>
        kernelVal (mkEngine 1 1).sig2 (mkEngine 1 1).ls2 [1] a.vec)).sum :=
  envs_struc_energy_entry (mkEngine 1 1) ⟨[⟨[1], 0⟩]⟩
    ⟨[⟨[1], 0, [], []⟩]⟩ 0 (by simp)

/-- C3: `envs_envs_grad` reuses the stored `Kuu` entries (the formulas
below hold for an arbitrary matrix of the right shape, so a stale `Kuu`
is propagated rather than recomputed): the sigma-block entry equals
`2·k/sigma` and the ls-block entry equals `k·(1 − c)·2/ls³`, where `k`
is the stored `Kuu` entry and `c` the cosine similarity of the
corresponding pair; these formulas are the genuine analytic derivatives
of the §4.1 form with respect to `sigma` and `ls`. -/
theorem envs_envs_grad_entries (eng : SquaredExponential)
    (envs1 envs2 : ClusterDescriptor) (Kuu : List (List ℝ)) (i j : ℕ)
    (hi : i < envs1.envs.length) (hj : j < envs2.envs.length)
    (hK : Kuu.length = envs1.envs.length)
    (hrow : ∀ r ∈ Kuu, r.length = envs2.envs.length) :
    entry (envs_envs_grad eng envs1 envs2 Kuu) i j =
        2 * entry Kuu i j / eng.sigma
    ∧ entry (envs_envs_grad eng envs1 envs2 Kuu) (Kuu.length + i) j =
        entry Kuu i j *
          (1 - cosSim (envs1.envs.get ⟨i, hi⟩).vec
            (envs2.envs.get ⟨j, hj⟩).vec) * 2 / eng.ls ^ 3
    ∧ (∀ c s0 : ℝ, s0 ≠ 0 →
        HasDerivAt (fun s : ℝ => s ^ 2 * Real.exp ((c - 1) / eng.ls2))
          (2 * (s0 ^ 2 * Real.exp ((c - 1) / eng.ls2)) / s0) s0)
    ∧ (∀ c s L0 : ℝ, L0 ≠ 0 →
        HasDerivAt (fun l : ℝ => s ^ 2 * Real.exp ((c - 1) / l ^ 2))
          (s ^ 2 * Real.exp ((c - 1) / L0 ^ 2) * (1 - c) * 2 / L0 ^ 3)
          L0) := by
  have hiK : i < Kuu.length := by rw [hK]; exact hi
  have hAlen :
      i < (Kuu.map (fun row => row.map (fun k => 2 * k / eng.sigma))).length := by
    simpa using hiK
  have hmem : Kuu.get ⟨i, hiK⟩ ∈ Kuu := by
    rw [List.get_eq_getElem]
    exact List.getElem_mem hiK
  have hrowlen : (Kuu.get ⟨i, hiK⟩).length = envs2.envs.length := hrow _ hmem
  refine ⟨?_, ?_, fun c s0 h => hasDerivAt_sigma_kernel c eng.ls2 s0 h,
    fun c s L0 h => hasDerivAt_ls_kernel c s L0 h⟩
  · rw [envs_envs_grad, entry_append_left _ _ i j hAlen,
      entry_scale_map Kuu (fun k => 2 * k / eng.sigma) (by simp) i j]
  · have hBle :
        (Kuu.map (fun row => row.map (fun k => 2 * k / eng.sigma))).length ≤
          Kuu.length + i := by simp
    rw [envs_envs_grad, entry_append_right _ _ _ j hBle]
    have hidx :
        Kuu.length + i -
          (Kuu.map (fun row => row.map (fun k => 2 * k / eng.sigma))).length =
          i := by simp
    rw [hidx]
    have hzip1 : i < (envs1.envs.zip Kuu).length := by
      rw [List.length_zip, hK, min_self]
      exact hi
    rw [entry, getD_map _ _ i hzip1]
    have hpair : (envs1.envs.zip Kuu).get ⟨i, hzip1⟩ =
        (envs1.envs.get ⟨i, hi⟩, Kuu.get ⟨i, hiK⟩) := by
      simp [List.get_eq_getElem, List.getElem_zip]
    rw [hpair]
    have hzip2 : j < (envs2.envs.zip (Kuu.get ⟨i, hiK⟩)).length := by
      rw [List.length_zip, hrowlen, min_self]
      exact hj
    have hj2 : j <
        ((envs2.envs.zip (Kuu.get ⟨i, hiK⟩)).map (fun q =>
          q.2 * (1 - cosSim (envs1.envs.get ⟨i, hi⟩).vec q.1.vec) * 2 /
            eng.ls ^ 3)).length := by
      simpa using hzip2
    rw [List.getD_eq_getElem _ _ hj2, List.getElem_map]
    have hjrow : j < (Kuu.get ⟨i, hiK⟩).length := by
      rw [hrowlen]
      exact hj
    have hKij : entry Kuu i j = (Kuu.get ⟨i, hiK⟩).getD j 0 := by
      rw [entry, List.getD_eq_getElem Kuu [] hiK]
      simp
    rw [hKij, List.getD_eq_getElem _ _ hjrow]
    simp [List.getElem_zip]

/-- Witness for C3 at a concrete input (with a freely chosen stored
matrix, exhibiting the reuse of its value). -/
theorem envs_envs_grad_entries_witness :
    entry (envs_envs_grad (mkEngine 1 1) ⟨[⟨[1], 0⟩]⟩ ⟨[⟨[1], 0⟩]⟩
        [[(5 : ℝ)]]) 0 0 =
      2 * entry [[(5 : ℝ)]] 0 0 / (mkEngine 1 1).sigma
    ∧ entry (envs_envs_grad (mkEngine 1 1) ⟨[⟨[1], 0⟩]⟩ ⟨[⟨[1], 0⟩]⟩
        [[(5 : ℝ)]]) ([[(5 : ℝ)]].length + 0) 0 =
      entry [[(5 : ℝ)]] 0 0 * (1 - cosSim [1] [1]) * 2 /
        (mkEngine 1 1).ls ^ 3
    ∧ (∀ c s0 : ℝ, s0 ≠ 0 →
        HasDerivAt
          (fun s : ℝ => s ^ 2 * Real.exp ((c - 1) / (mkEngine 1 1).ls2))
          (2 * (s0 ^ 2 * Real.exp ((c - 1) / (mkEngine 1 1).ls2)) / s0) s0)
    ∧ (∀ c s L0 : ℝ, L0 ≠ 0 →
        HasDerivAt (fun l : ℝ => s ^ 2 * Real.exp ((c - 1) / l ^ 2))
          (s ^ 2 * Real.exp ((c - 1) / L0 ^ 2) * (1 - c) * 2 / L0 ^ 3)
          L0) :=
  envs_envs_grad_entries (mkEngine 1 1) ⟨[⟨[1], 0⟩]⟩ ⟨[⟨[1], 0⟩]⟩
    [[(5 : ℝ)]] 0 0 (by simp) (by simp) (by simp) (by simp)

/-- C8: a zero-norm descriptor never makes a kernel operation fail
(every operation is a total function in this model); it contributes
exactly zero kernel value to every cell it participates in — as either
argument of the kernel primitive, through the derivative chain rule, in
its `envs_envs` row, and in the `envs_struc` energy column — and the
rest of the result is computed as usual (dropping a zero-norm atom
leaves the energy entry unchanged). -/
theorem zero_norm_contributes_zero (eng : SquaredExponential)
    (u : List ℝ) (hu : euclideanNorm u = 0) :
    (∀ v, kernelVal eng.sig2 eng.ls2 u v = 0
        ∧ kernelVal eng.sig2 eng.ls2 v u = 0)
    ∧ (∀ v w, dotList (kernelGrad eng.sig2 eng.ls2 v u) w = 0)
    ∧ (∀ (envs1 envs2 : ClusterDescriptor) (i j : ℕ)
        (hi : i < envs1.envs.length),
        (envs1.envs.get ⟨i, hi⟩).vec = u →
        entry (envs_envs eng envs1 envs2) i j = 0)
    ∧ (∀ (envs : ClusterDescriptor) (i : ℕ) (hi : i < envs.envs.length),
        (envs.envs.get ⟨i, hi⟩).vec = u →
        ∀ struc : DescriptorValues,
        entry (envs_struc eng envs struc) i 0 = 0)
    ∧ (∀ (envs : ClusterDescriptor) (pre post : List AtomDesc)
        (a0 : AtomDesc), a0.vec = u → ∀ i : ℕ,
        entry (envs_struc eng envs ⟨pre ++ a0 :: post⟩) i 0 =
          entry (envs_struc eng envs ⟨pre ++ post⟩) i 0) := by
  refine ⟨?_, ?_, ?_, ?_, ?_⟩
  · exact fun v => ⟨kernelVal_zero_left _ _ _ _ hu,
      kernelVal_zero_right _ _ _ _ hu⟩
  · intro v w
    rw [kernelGrad, if_pos (Or.inr hu)]
    exact dotList_map_zero_left u w
  · intro envs1 envs2 i j hi hvec
    by_cases hj : j < envs2.envs.length
    · rw [envs_envs, entry_map_map _ _ _ i j hi hj]
      by_cases hk :
          (envs1.envs.get ⟨i, hi⟩).kind = (envs2.envs.get ⟨j, hj⟩).kind
      · rw [if_pos hk]
        exact kernelVal_zero_left _ _ _ _ (by rw [hvec]; exact hu)
      · rw [if_neg hk]
    · rw [envs_envs, entry_map_map_col_oob _ _ _ i j (not_lt.mp hj)]
  · intro envs i hi hvec struc
    rw [envs_struc, entry, getD_map _ _ i hi]
    show (struc.atoms.map (fun a =>
      kernelVal eng.sig2 eng.ls2 (envs.envs.get ⟨i, hi⟩).vec a.vec)).sum = 0
    refine List.sum_eq_zero ?_
    intro x hx
    obtain ⟨a, _, rfl⟩ := List.mem_map.mp hx
    exact kernelVal_zero_left _ _ _ _ (by rw [hvec]; exact hu)
  · intro envs pre post a0 ha0 i
    by_cases hi : i < envs.envs.length
    · rw [envs_struc, envs_struc, entry, entry, getD_map _ _ i hi,
        getD_map _ _ i hi]
      show ((pre ++ a0 :: post).map (fun a =>
          kernelVal eng.sig2 eng.ls2 (envs.envs.get ⟨i, hi⟩).vec a.vec)).sum =
        ((pre ++ post).map (fun a =>
          kernelVal eng.sig2 eng.ls2 (envs.envs.get ⟨i, hi⟩).vec a.vec)).sum
      rw [List.map_append, List.map_cons, List.sum_append, List.sum_cons,
        List.map_append, List.sum_append,
        kernelVal_zero_right _ _ _ _ (by rw [ha0]; exact hu), zero_add]
    · rw [envs_struc, envs_struc, entry_map_row_oob _ _ i 0 (not_lt.mp hi),
        entry_map_row_oob _ _ i 0 (not_lt.mp hi)]

/-- Witness for C8 at a concrete zero-norm descriptor. -/
theorem zero_norm_contributes_zero_witness :
    (∀ v, kernelVal (mkEngine 1 1).sig2 (mkEngine 1 1).ls2 [0] v = 0
        ∧ kernelVal (mkEngine 1 1).sig2 (mkEngine 1 1).ls2 v [0] = 0)
    ∧ (∀ v w, dotList (kernelGrad (mkEngine 1 1).sig2 (mkEngine 1 1).ls2 v [0]) w = 0)
    ∧ (∀ (envs1 envs2 : ClusterDescriptor) (i j : ℕ)
        (hi : i < envs1.envs.length),
        (envs1.envs.get ⟨i, hi⟩).vec = [0] →
        entry (envs_envs (mkEngine 1 1) envs1 envs2) i j = 0)
    ∧ (∀ (envs : ClusterDescriptor) (i : ℕ) (hi : i < envs.envs.length),
        (envs.envs.get ⟨i, hi⟩).vec = [0] →
        ∀ struc : DescriptorValues,
        entry (envs_struc (mkEngine 1 1) envs struc) i 0 = 0)
    ∧ (∀ (envs : ClusterDescriptor) (pre post : List AtomDesc)
        (a0 : AtomDesc), a0.vec = [0] → ∀ i : ℕ,
        entry (envs_struc (mkEngine 1 1) envs ⟨pre ++ a0 :: post⟩) i 0 =
          entry (envs_struc (mkEngine 1 1) envs ⟨pre ++ post⟩) i 0) :=
  zero_norm_contributes_zero (mkEngine 1 1) [0]
    (by simp [euclideanNorm, dotList])

/-- C10 counterexample: it is not the case that every `DescriptorValues`
argument of a build operation is declared by value — `envs_struc` takes
its `DescriptorValues` by const reference (squared_exponential.h
line 27). -/
theorem envs_struc_descriptorValues_by_const_ref :
    ¬ (∀ op ∈ buildOpSignatures, ∀ p ∈ op.2,
        p.type = CppType.descriptorValuesT → p.mode = PassMode.byValue) := by
  decide

/-- C10 (amended): every matrix-building operation leaves the engine's
hyperparameter state and the caller's descriptor containers unchanged:
`ClusterDescriptor` arguments are taken by const reference and
`DescriptorValues` arguments by const reference or by value (never by
mutable reference), so no build call can mutate its inputs, and two
calls with identical inputs under identical hyperparameters return
equal results. -/
theorem build_operations_frame (eng eng' : SquaredExponential)
    (h1 : eng.sigma = eng'.sigma) (h2 : eng.ls = eng'.ls)
    (h3 : eng.sig2 = eng'.sig2) (h4 : eng.ls2 = eng'.ls2) :
    (∀ op ∈ buildOpSignatures, ∀ p ∈ op.2,
        p.type = CppType.clusterDescriptorT → p.mode = PassMode.constRef)
    ∧ (∀ op ∈ buildOpSignatures, ∀ p ∈ op.2, p.mode ≠ PassMode.mutRef)
    ∧ (∀ envs1 envs2,
        envs_envs eng envs1 envs2 = envs_envs eng' envs1 envs2)
    ∧ (∀ envs1 envs2 K,
        envs_envs_grad eng envs1 envs2 K = envs_envs_grad eng' envs1 envs2 K)
    ∧ (∀ envs struc,
        envs_struc eng envs struc = envs_struc eng' envs struc)
    ∧ (∀ struc, self_kernel_struc eng struc = self_kernel_struc eng' struc)
    ∧ (∀ s1 s2, struc_struc eng s1 s2 = struc_struc eng' s1 s2) := by
  obtain ⟨a, b, c, d⟩ := eng
  obtain ⟨a', b', c', d'⟩ := eng'
  have ha : a = a' := h1
  have hb : b = b' := h2
  have hc : c = c' := h3
  have hd : d = d' := h4
  subst ha; subst hb; subst hc; subst hd
  exact ⟨by decide, by decide, fun _ _ => rfl, fun _ _ _ => rfl,
    fun _ _ => rfl, fun _ => rfl, fun _ _ => rfl⟩

/-- Witness for C10's amended theorem at concrete equal engines. -/
theorem build_operations_frame_witness :
    (∀ op ∈ buildOpSignatures, ∀ p ∈ op.2,
        p.type = CppType.clusterDescriptorT → p.mode = PassMode.constRef)
    ∧ (∀ op ∈ buildOpSignatures, ∀ p ∈ op.2, p.mode ≠ PassMode.mutRef)
    ∧ (∀ envs1 envs2,
        envs_envs (mkEngine 1 1) envs1 envs2 =
          envs_envs (mkEngine 1 1) envs1 envs2)
    ∧ (∀ envs1 envs2 K,
        envs_envs_grad (mkEngine 1 1) envs1 envs2 K =
          envs_envs_grad (mkEngine 1 1) envs1 envs2 K)
    ∧ (∀ envs struc,
        envs_struc (mkEngine 1 1) envs struc =
          envs_struc (mkEngine 1 1) envs struc)
    ∧ (∀ struc,
        self_kernel_struc (mkEngine 1 1) struc =
          self_kernel_struc (mkEngine 1 1) struc)
    ∧ (∀ s1 s2,
        struc_struc (mkEngine 1 1) s1 s2 =
          struc_struc (mkEngine 1 1) s1 s2) :=
  build_operations_frame (mkEngine 1 1) (mkEngine 1 1) rfl rfl rfl rfl

end Flare
